import Mathlib

/-!
Verification of the reviewiabd revision application.

The definitions below are a shallow embedding of the TypeScript sources:
  * `src/lib/utils.ts` (calculatePercentage, calculateScore, calculateBatches,
    retryWithBackoff),
  * `src/services/OpenRouterService.ts` (parseQuestionsFromResponse,
    handleAPIError, generateQuestionsBatch, generateQuestions),
  * `src/services/StatisticsService.ts` (calculateSessionScore,
    calculateFromScratch, updateFromSession, clear, and the StorageService
    export/import pair),
  * `src/services/IndexedDBService.ts` (keyed object stores: put/get/delete),
  * the quiz page (calculateScore, saveExamAttempt).

JavaScript numbers are modelled as rationals (`ℚ`) or integers; `Math.round`
is modelled by `jsRound` (round half toward positive infinity), `Math.floor`
on integer millisecond differences by `Int.fdiv`.  `Date` values are modelled
as integer timestamps.  JavaScript records (plain objects used as maps) are
modelled as association lists; IndexedDB object stores are association lists
with `put` replacing in place or appending.
-/

/-- JavaScript `Math.round`: rounds half toward positive infinity. -/
def jsRound (q : ℚ) : ℤ := ⌊q + 1/2⌋

/-- JavaScript `a || b` on optional strings, where the empty string is falsy
(used for `error.response.data?.error?.message || error.message` and
`a.text || a.answer`).  A missing / still-falsy result is modelled as `""`. -/
def jsOrString (a b : Option String) : String :=
  match a with
  | some s => if s = "" then (b.getD "") else s
  | none => b.getD ""

/-- JavaScript truthiness of an optional boolean field
(used for `a.isCorrect || a.correct || false`). -/
def jsTruthy (a : Option Bool) : Bool :=
  match a with
  | some b => b
  | none => false

-- ============================================
-- Data model (src/types/index.ts)
-- ============================================

/-- The `Domain` enum: the ten fixed subject categories. -/
inductive Domain where
  | MACHINE_LEARNING
  | IA_SYMBOLIQUE
  | DATA_WAREHOUSING
  | BIG_DATA
  | SYSTEMES_RECOMMANDATION
  | DATA_MINING
  | DEEP_LEARNING
  | VISUALISATION_DONNEES
  | ETHIQUE_IA
  | NLP
deriving DecidableEq, Repr

/-- `Object.values(Domain)`, in declaration order. -/
def allDomains : List Domain :=
  [.MACHINE_LEARNING, .IA_SYMBOLIQUE, .DATA_WAREHOUSING, .BIG_DATA,
   .SYSTEMES_RECOMMANDATION, .DATA_MINING, .DEEP_LEARNING,
   .VISUALISATION_DONNEES, .ETHIQUE_IA, .NLP]

/-- The `QuestionType` enum. -/
inductive QuestionType where
  | SINGLE_CHOICE
  | MULTIPLE_CHOICE
deriving DecidableEq, Repr

/-- The difficulty union type `"easy" | "medium" | "hard"`. -/
inductive Difficulty where
  | easy
  | medium
  | hard
deriving DecidableEq, Repr

/-- The `Answer` interface. -/
structure Answer where
  id : String
  text : String
  isCorrect : Bool
deriving DecidableEq, Repr

/-- The `Question` interface.  `createdAt : Date` is modelled as an integer
timestamp (milliseconds). -/
structure Question where
  id : String
  domain : Domain
  type : QuestionType
  question : String
  answers : List Answer
  explanation : String
  difficulty : Difficulty
  tags : List String
  createdAt : ℤ
deriving DecidableEq, Repr

/-- The `UserAnswer` interface. -/
structure UserAnswer where
  questionId : String
  selectedAnswerIds : List String
  isCorrect : Bool
  timeSpent : ℤ
  isFavorite : Bool
deriving DecidableEq, Repr

/-- The `QuizSessionStatus` enum. -/
inductive QuizSessionStatus where
  | IDLE
  | IN_PROGRESS
  | COMPLETED
  | PAUSED
deriving DecidableEq, Repr

/-- The session type union `"practice" | "exam" | "offline" | "favorites"`. -/
inductive SessionType where
  | practice
  | exam
  | offline
  | favorites
deriving DecidableEq, Repr

/-- The `QuizSession` interface.  The `userAnswers` record (a JS object keyed
by question id) is modelled as an association list. -/
structure QuizSession where
  id : String
  type : SessionType
  domain : Option Domain
  questions : List Question
  userAnswers : List (String × UserAnswer)
  currentIndex : ℕ
  status : QuizSessionStatus
  startedAt : ℤ
  completedAt : Option ℤ
  timeLimit : Option ℤ
  timeRemaining : Option ℤ
  examId : Option String
deriving DecidableEq, Repr

/-- The `UserSettings` interface (`updatedAt : Date` as a timestamp).
The Gemini key is not part of this interface in `types/index.ts`; settings
fields used by the claims are all present. -/
structure UserSettings where
  apiKey : String
  model : String
  defaultModel : String
  notifyOnComplete : Bool
  offlineQuestionsPerDomain : ℤ
  onboardingCompleted : Bool
  updatedAt : ℤ
deriving DecidableEq, Repr

/-- The `APIError` interface. -/
structure APIError where
  message : String
  code : Option String
  statusCode : Option ℕ
  isRetryable : Bool
deriving DecidableEq, Repr

/-- One entry of `UserStatistics.domainsProgress`. -/
structure DomainProgress where
  questionsAnswered : ℕ
  correctAnswers : ℕ
  averageScore : ℤ
deriving DecidableEq, Repr

/-- The `UserStatistics` interface.  `domainsProgress` (a record keyed by
domain) is modelled as an association list. -/
structure UserStatistics where
  totalQuestionsAnswered : ℕ
  totalCorrectAnswers : ℕ
  totalExamsTaken : ℕ
  averageScore : ℤ
  totalStudyTime : ℤ
  favoriteQuestions : List String
  domainsProgress : List (Domain × DomainProgress)
deriving DecidableEq, Repr

-- ============================================
-- Record (JS object) lookup
-- ============================================

/-- `record[key]` on a JS object modelled as an association list. -/
def recordGet {κ α : Type} [DecidableEq κ] (l : List (κ × α)) (k : κ) :
    Option α :=
  match l with
  | [] => none
  | (k', v) :: rest => if k' = k then some v else recordGet rest k

-- ============================================
-- src/lib/utils.ts
-- ============================================

/-- `calculatePercentage(value, total)`: `total === 0` is guarded, otherwise
`Math.round((value / total) * 100)`. -/
def calculatePercentage (value total : ℚ) : ℤ :=
  if total = 0 then 0 else jsRound (value / total * 100)

/-- `calculateScore(correctAnswers, totalQuestions)`: identical guard and
formula. -/
def calculateScore (correctAnswers totalQuestions : ℚ) : ℤ :=
  if totalQuestions = 0 then 0 else jsRound (correctAnswers / totalQuestions * 100)

/-- `calculateBatches(total, batchSize) = Math.ceil(total / batchSize)`,
for a positive batch size (the only way the app calls it). -/
def calculateBatches (total batchSize : ℕ) : ℕ :=
  (total + batchSize - 1) / batchSize

-- ============================================
-- retryWithBackoff (src/lib/utils.ts)
-- ============================================

/-- Outcome of `retryWithBackoff`: a returned value, a rethrown error from the
final attempt, or the unreachable final `throw new Error("Max retries
reached")` (reachable only when `maxRetries = 0`). -/
inductive RetryOutcome (ε α : Type) where
  | ok (a : α)
  | err (e : ε)
  | exhausted
deriving DecidableEq, Repr

/-- One record of a `retryWithBackoff` run: how many times `fn` was invoked,
the list of back-off delays slept between attempts, and the outcome. -/
structure RetryRun (ε α : Type) where
  attempts : ℕ
  delays : List ℕ
  outcome : RetryOutcome ε α
deriving DecidableEq, Repr

/-- The loop body of `retryWithBackoff`.  `attempt i` is the result of the
`i`-th invocation of `fn` (the nondeterministic callback is modelled as an
oracle indexed by attempt number).  `fuel` counts the remaining loop
iterations, starting at `maxRetries`. -/
def retryAux {ε α : Type} (attempt : ℕ → Except ε α) (maxRetries baseDelay : ℕ)
    (i : ℕ) : (fuel : ℕ) → RetryRun ε α
  | 0 => ⟨0, [], .exhausted⟩
  | fuel + 1 =>
    match attempt i with
    | .ok a => ⟨1, [], .ok a⟩
    | .error e =>
      if i = maxRetries - 1 then ⟨1, [], .err e⟩
      else
        let r := retryAux attempt maxRetries baseDelay (i + 1) fuel
        ⟨r.attempts + 1, baseDelay * 2 ^ i :: r.delays, r.outcome⟩

/-- `retryWithBackoff(fn, maxRetries, baseDelay)`: `for (let i = 0;
i < maxRetries; i++) { try { return await fn(); } catch (error) {
if (i === maxRetries - 1) throw error; await sleep(baseDelay * 2 ** i); } }`. -/
def retryWithBackoff {ε α : Type} (attempt : ℕ → Except ε α)
    (maxRetries baseDelay : ℕ) : RetryRun ε α :=
  retryAux attempt maxRetries baseDelay 0 maxRetries

-- ============================================
-- IndexedDB keyed object stores (src/services/IndexedDBService.ts)
-- ============================================

/-- An IndexedDB object store: keys mapped to values.  `db.put(store, v, k)`
replaces the entry for an existing key in place, otherwise appends. -/
def storePut {α : Type} (l : List (String × α)) (k : String) (v : α) :
    List (String × α) :=
  match l with
  | [] => [(k, v)]
  | (k', v') :: rest =>
    if k' = k then (k, v) :: rest else (k', v') :: storePut rest k v

/-- `db.get(store, k)`. -/
def storeGet {α : Type} (l : List (String × α)) (k : String) : Option α :=
  match l with
  | [] => none
  | (k', v) :: rest => if k' = k then some v else storeGet rest k

/-- `db.delete(store, k)`. -/
def storeDelete {α : Type} (l : List (String × α)) (k : String) :
    List (String × α) :=
  l.filter (fun p => ¬ p.1 = k)

/-- `db.getAll(store)`: the stored values. -/
def storeValues {α : Type} (l : List (String × α)) : List α := l.map Prod.snd

/-- The keys of a store. -/
def storeKeys {α : Type} (l : List (String × α)) : List String := l.map Prod.fst

/-- `IndexedDBService.addFavorite(question)`:
`db.put("favorites", question, question.id)`. -/
def addFavorite (favorites : List (String × Question)) (q : Question) :
    List (String × Question) :=
  storePut favorites q.id q

/-- `IndexedDBService.removeFavorite(id)`: `db.delete("favorites", id)`. -/
def removeFavorite (favorites : List (String × Question)) (id : String) :
    List (String × Question) :=
  storeDelete favorites id

/-- `IndexedDBService.saveSession(session)`:
`db.put("sessions", session, session.id)`. -/
def saveSession (sessions : List (String × QuizSession)) (s : QuizSession) :
    List (String × QuizSession) :=
  storePut sessions s.id s

/-- `IndexedDBService.getSession(id)`: `db.get("sessions", id)`. -/
def getSession (sessions : List (String × QuizSession)) (id : String) :
    Option QuizSession :=
  storeGet sessions id

-- ============================================
-- parseQuestionsFromResponse (src/services/OpenRouterService.ts)
-- ============================================

/-- The string value of a `Domain` enum member (the TS enum values are their
own names). -/
def domainKey : Domain → String
  | .MACHINE_LEARNING => "MACHINE_LEARNING"
  | .IA_SYMBOLIQUE => "IA_SYMBOLIQUE"
  | .DATA_WAREHOUSING => "DATA_WAREHOUSING"
  | .BIG_DATA => "BIG_DATA"
  | .SYSTEMES_RECOMMANDATION => "SYSTEMES_RECOMMANDATION"
  | .DATA_MINING => "DATA_MINING"
  | .DEEP_LEARNING => "DEEP_LEARNING"
  | .VISUALISATION_DONNEES => "VISUALISATION_DONNEES"
  | .ETHIQUE_IA => "ETHIQUE_IA"
  | .NLP => "NLP"

/-- One entry of the JSON array decoded from the model response: the fields
the parser reads, each possibly absent. -/
structure RawAnswer where
  text : Option String
  answer : Option String
  isCorrect : Option Bool
  correct : Option Bool
deriving DecidableEq, Repr

/-- One question object decoded from the model response.  A missing or empty
`question` string is falsy (`!q.question`); `answers = none` models a missing
or non-array `answers` field. -/
structure RawQuestion where
  question : String
  answers : Option (List RawAnswer)
  explanation : Option String
deriving DecidableEq, Repr

/-- The body of the `questionsData.map` in `parseQuestionsFromResponse`:
build a `Question` from a raw entry.  `qid`/`aid` model the `generateId()`
supply (question index, answer index). -/
def buildQuestion (qid : ℕ → String) (aid : ℕ → ℕ → String) (domain : Domain)
    (index : ℕ) (rq : RawQuestion) (answers : List RawAnswer) : Question :=
  { id := qid index
    domain := domain
    type := .SINGLE_CHOICE
    question := rq.question
    answers := answers.enum.map (fun ai =>
      { id := aid index ai.1
        text := jsOrString ai.2.text ai.2.answer
        isCorrect := jsTruthy ai.2.isCorrect || jsTruthy ai.2.correct })
    explanation := rq.explanation.getD ""
    difficulty := .medium
    tags := [domainKey domain]
    createdAt := 0 }

/-- The validating map over the decoded array: throws
`Invalid question format at index i` when `!q.question || !q.answers ||
!Array.isArray(q.answers)`. -/
def parseQuestionsAux (qid : ℕ → String) (aid : ℕ → ℕ → String)
    (domain : Domain) (index : ℕ) :
    List RawQuestion → Except String (List Question)
  | [] => .ok []
  | rq :: rest =>
    match rq.answers with
    | none => .error ("Invalid question format at index " ++ toString index)
    | some answers =>
      if rq.question = "" then
        .error ("Invalid question format at index " ++ toString index)
      else
        match parseQuestionsAux qid aid domain (index + 1) rest with
        | .error e => .error e
        | .ok qs => .ok (buildQuestion qid aid domain index rq answers :: qs)

/-- `parseQuestionsFromResponse(content, domain)` after JSON extraction:
the input models the successfully decoded JSON array; any error thrown while
mapping is caught and rethrown as `Invalid response format from AI`. -/
def parseQuestionsFromResponse (qid : ℕ → String) (aid : ℕ → ℕ → String)
    (domain : Domain) (questionsData : List RawQuestion) :
    Except String (List Question) :=
  match parseQuestionsAux qid aid domain 0 questionsData with
  | .error _ => .error "Invalid response format from AI"
  | .ok qs => .ok qs

-- ============================================
-- OpenRouterService: constants, handleAPIError, generateQuestionsBatch,
-- generateQuestions
-- ============================================

/-- `const BATCH_SIZE = 10`. -/
def BATCH_SIZE : ℕ := 10

/-- `const MAX_RETRIES = 3`. -/
def MAX_RETRIES : ℕ := 3

/-- `const BASE_DELAY = 1000`. -/
def BASE_DELAY : ℕ := 1000

/-- A value thrown inside `generateQuestionsBatch`: either an object carrying
an HTTP `response` (status plus optional `data.error.message` and `message`),
or any other thrown value, of which `handleAPIError` only reads `message`. -/
inductive RawError where
  | response (status : ℕ) (dataMessage : Option String) (message : Option String)
  | plain (message : Option String)
deriving DecidableEq, Repr

/-- `handleAPIError(error)`: classifies a thrown value into an `APIError`.
With a `response`: 429 is a retryable RATE_LIMIT, 401/403 a non-retryable
INVALID_API_KEY, >= 500 a retryable SERVER_ERROR, anything else non-retryable
with the response message.  Without one: non-retryable with
`error.message || "Unknown error occurred"`. -/
def handleAPIError (error : RawError) : APIError :=
  match error with
  | .response status dataMessage message =>
    if status = 429 then
      { message := "Rate limit exceeded. Please wait."
        code := some "RATE_LIMIT", statusCode := some status, isRetryable := true }
    else if status = 401 ∨ status = 403 then
      { message := "Invalid API key. Please check your configuration."
        code := some "INVALID_API_KEY", statusCode := some status
        isRetryable := false }
    else if 500 ≤ status then
      { message := "Server error. Please try again later."
        code := some "SERVER_ERROR", statusCode := some status
        isRetryable := true }
    else
      { message := jsOrString dataMessage message
        code := none, statusCode := some status, isRetryable := false }
  | .plain message =>
    { message := jsOrString message (some "Unknown error occurred")
      code := none, statusCode := none, isRetryable := false }

/-- The successful value of one fetch inside `generateQuestionsBatch`:
`content` models `response.choices?.[0]?.message?.content` (`none` when the
content is missing or empty), and a present content is recorded as the outcome
of its JSON extraction: `Except.error ()` when extraction or `JSON.parse`
fails, `Except.ok qs` when it decodes to the array `qs`. -/
structure ChatResponse where
  content : Option (Except Unit (List RawQuestion))
deriving Repr

/-- `OpenRouterService.generateQuestionsBatch(request)`.  `fetchAttempt i` is
the outcome of the `i`-th fetch inside `retryWithBackoff` (HTTP failures throw
a `RawError.response`).  The first component counts the provider (fetch) calls
issued.  Every thrown value funnels through the `catch` at the bottom, i.e.
through `handleAPIError`. -/
def generateQuestionsBatch (apiKey : String) (qid : ℕ → String)
    (aid : ℕ → ℕ → String) (domain : Domain)
    (fetchAttempt : ℕ → Except RawError ChatResponse) :
    ℕ × Except APIError (List Question) :=
  if apiKey = "" then
    (0, .error (handleAPIError (.plain
      (some "API key not configured. Please complete onboarding."))))
  else
    let run := retryWithBackoff fetchAttempt MAX_RETRIES BASE_DELAY
    match run.outcome with
    | .err e => (run.attempts, .error (handleAPIError e))
    | .exhausted => (run.attempts, .error (handleAPIError (.plain
        (some "Max retries reached"))))
    | .ok resp =>
      match resp.content with
      | none => (run.attempts, .error (handleAPIError (.plain
          (some "Empty response from API"))))
      | some (.error _) => (run.attempts, .error (handleAPIError (.plain
          (some "Invalid response format from AI"))))
      | some (.ok questionsData) =>
        match parseQuestionsFromResponse qid aid domain questionsData with
        | .error m => (run.attempts, .error (handleAPIError (.plain (some m))))
        | .ok questions => (run.attempts, .ok questions)

/-- The batch loop of `OpenRouterService.generateQuestions`.  `provider i n`
is the outcome of the `i`-th `generateQuestionsBatch` call, requested with
`count = n`; the trace records the requested size of every call issued.
`fuel` is the number of remaining batches, starting at `totalBatches`. -/
def genBatchesAux (provider : ℕ → ℕ → Except APIError (List Question))
    (count : ℕ) (i : ℕ) : (fuel : ℕ) → List ℕ × Except APIError (List Question)
  | 0 => ([], .ok [])
  | fuel + 1 =>
    let batchSize := min BATCH_SIZE (count - i * BATCH_SIZE)
    match provider i batchSize with
    | .error e => ([batchSize], .error e)
    | .ok batchQuestions =>
      match genBatchesAux provider count (i + 1) fuel with
      | (trace, .error e) => (batchSize :: trace, .error e)
      | (trace, .ok rest) => (batchSize :: trace, .ok (batchQuestions ++ rest))

/-- `OpenRouterService.generateQuestions(request)`: runs
`Math.ceil(count / BATCH_SIZE)` batches of size
`Math.min(BATCH_SIZE, count - batchIndex * BATCH_SIZE)`, concatenating the
results and rethrowing the first batch failure. -/
def generateQuestions (provider : ℕ → ℕ → Except APIError (List Question))
    (count : ℕ) : List ℕ × Except APIError (List Question) :=
  genBatchesAux provider count 0 (calculateBatches count BATCH_SIZE)

/-- The requested size of each batch, in order. -/
def batchSizes (count : ℕ) : List ℕ :=
  (List.range (calculateBatches count BATCH_SIZE)).map
    (fun i => min BATCH_SIZE (count - i * BATCH_SIZE))

-- ============================================
-- StatisticsService (src/services/StatisticsService.ts)
-- ============================================

/-- The counting loop shared by `calculateSessionScore` and the quiz page's
`saveExamAttempt`: over the session's questions, count (correct, answered)
among those with an entry in `userAnswers`. -/
def sessionCounts (session : QuizSession) : ℕ × ℕ :=
  session.questions.foldl
    (fun acc q =>
      match recordGet session.userAnswers q.id with
      | some ua => ((acc.1 + if ua.isCorrect then 1 else 0), acc.2 + 1)
      | none => acc)
    (0, 0)

/-- `StatisticsService.calculateSessionScore(session)`: counts correct and
answered questions, then `answered > 0 ? Math.round((correct / answered) *
100) : null`.  (The `!session.questions || !session.userAnswers` guard is for
absent fields, which the model's total record rules out.) -/
def calculateSessionScore (session : QuizSession) : Option ℤ :=
  let counts := sessionCounts session
  if 0 < counts.2 then some (jsRound ((counts.1 : ℚ) / counts.2 * 100))
  else none

/-- The quiz page's `calculateScore()` (`app/.../page` in `part_006`):
`correct` counts questions whose selected answer id strictly equals the id of
the first correct answer (`selectedId === correctAnswer?.id`, so a question
with no correct answer and no selection compares `undefined === undefined`),
divided by the full question count. -/
def quizPageCalculateScore (questions : List Question)
    (selectedAnswers : List (String × String)) : ℤ :=
  let correct := (questions.filter (fun q =>
    match recordGet selectedAnswers q.id, q.answers.find? (·.isCorrect) with
    | some sel, some ca => sel == ca.id
    | some _, none => false
    | none, some _ => false
    | none, none => true)).length
  jsRound ((correct : ℚ) / questions.length * 100)

/-- The score computed in the quiz page's `saveExamAttempt`: the same counts
as `calculateSessionScore`, but `answered > 0 ? Math.round(...) : 0`. -/
def examAttemptScore (session : QuizSession) : ℤ :=
  let counts := sessionCounts session
  if 0 < counts.2 then jsRound ((counts.1 : ℚ) / counts.2 * 100) else 0

/-- `Object.values(Domain).forEach` initialisation of `domainsProgress`:
every domain gets `{ questionsAnswered: 0, correctAnswers: 0,
averageScore: 0 }`. -/
def dpInit : List (Domain × DomainProgress) :=
  allDomains.map (fun d => (d, ⟨0, 0, 0⟩))

/-- In-place mutation `domainsProgress[d] = f(domainsProgress[d])` of an
existing entry (absent entries are left untouched, matching the
`if (domain && domainsProgress[domain])` guard). -/
def dpUpdate (l : List (Domain × DomainProgress)) (d : Domain)
    (f : DomainProgress → DomainProgress) : List (Domain × DomainProgress) :=
  l.map (fun p => if p.1 = d then (p.1, f p.2) else p)

/-- The in-loop update of one domain entry in
`StatisticsService.updateFromSession`: increment `questionsAnswered`,
increment `correctAnswers` when the answer was correct, and recompute
`averageScore = Math.round((correctAnswers / questionsAnswered) * 100)`. -/
def bumpProgress (correct : Bool) (p : DomainProgress) : DomainProgress :=
  let qa := p.questionsAnswered + 1
  let ca := p.correctAnswers + if correct then 1 else 0
  { questionsAnswered := qa
    correctAnswers := ca
    averageScore := jsRound ((ca : ℚ) / (qa : ℚ) * 100) }

/-- The per-question body of the `sessionQuestions.forEach` in
`StatisticsService.updateFromSession`: when the question has a user answer,
bump `totalCorrectAnswers`, then bump the domain counters and recompute that
domain's average. -/
def updateStatsQuestion (answers : List (String × UserAnswer))
    (stats : UserStatistics) (q : Question) : UserStatistics :=
  match recordGet answers q.id with
  | none => stats
  | some ua =>
    let stats1 :=
      if ua.isCorrect then
        { stats with totalCorrectAnswers := stats.totalCorrectAnswers + 1 }
      else stats
    match recordGet stats1.domainsProgress q.domain with
    | none => stats1
    | some _ =>
      { stats1 with
        domainsProgress :=
          dpUpdate stats1.domainsProgress q.domain (bumpProgress ua.isCorrect) }

/-- `StatisticsService.updateFromSession(session)`.  `totalSessions` models
`getTotalCompletedSessions()` (a DB read).  Non-completed sessions are
skipped; otherwise the totals, the per-domain counters and averages, the exam
count, the study time and the running `averageScore` are updated exactly as in
the source. -/
def updateFromSession (stats : UserStatistics) (session : QuizSession)
    (totalSessions : ℕ) : UserStatistics :=
  if session.status ≠ .COMPLETED then stats
  else
    let answeredCount := session.userAnswers.length
    let s1 := { stats with
      totalQuestionsAnswered := stats.totalQuestionsAnswered + answeredCount }
    let s2 := session.questions.foldl (updateStatsQuestion session.userAnswers) s1
    let s3 :=
      if session.type = .exam then
        { s2 with totalExamsTaken := s2.totalExamsTaken + 1 }
      else s2
    let s4 :=
      match session.completedAt with
      | some c =>
        { s3 with totalStudyTime :=
            s3.totalStudyTime + (c - session.startedAt).fdiv 1000 }
      | none => s3
    let sessionCorrect := (session.questions.filter (fun q =>
      match recordGet session.userAnswers q.id with
      | some ua => ua.isCorrect
      | none => false)).length
    let sessionScore : ℤ :=
      if 0 < answeredCount then
        jsRound ((sessionCorrect : ℚ) / answeredCount * 100)
      else 0
    let newAverage : ℤ := jsRound
      (((s4.averageScore : ℚ) * ((totalSessions : ℚ) - 1) + sessionScore)
        / totalSessions)
    { s4 with averageScore := newAverage }

/-- The in-loop update of one domain entry in the accumulation phase of
`StatisticsService.calculateFromScratch`: increment the counters only (the
averages are filled in by a final pass). -/
def bumpCounts (correct : Bool) (p : DomainProgress) : DomainProgress :=
  { p with
    questionsAnswered := p.questionsAnswered + 1
    correctAnswers := p.correctAnswers + if correct then 1 else 0 }

/-- The per-question body of the accumulation loop in
`StatisticsService.calculateFromScratch`: bump the running
`totalCorrectAnswers` and the domain counters. -/
def scratchQuestion (answers : List (String × UserAnswer))
    (acc : ℕ × List (Domain × DomainProgress)) (q : Question) :
    ℕ × List (Domain × DomainProgress) :=
  match recordGet answers q.id with
  | none => acc
  | some ua =>
    let tc := acc.1 + if ua.isCorrect then 1 else 0
    match recordGet acc.2 q.domain with
    | none => (tc, acc.2)
    | some _ => (tc, dpUpdate acc.2 q.domain (bumpCounts ua.isCorrect))

/-- `StatisticsService.calculateFromScratch()`: rebuild the statistics from
the completed sessions and the favorites. -/
def calculateFromScratch (allSessions : List QuizSession)
    (favorites : List Question) : UserStatistics :=
  let completedSessions :=
    allSessions.filter (fun s => s.status == .COMPLETED)
  let totalQuestionsAnswered :=
    completedSessions.foldl (fun n s => n + s.userAnswers.length) 0
  let totalStudyTime : ℤ :=
    completedSessions.foldl (fun t s =>
      match s.completedAt with
      | some c => t + (c - s.startedAt).fdiv 1000
      | none => t) 0
  let accumulated :=
    completedSessions.foldl (fun acc s =>
      s.questions.foldl (scratchQuestion s.userAnswers) acc) (0, dpInit)
  let totalExamsTaken :=
    (completedSessions.filter (fun s => s.type == .exam)).length
  let scoreAcc : ℤ × ℕ :=
    completedSessions.foldl (fun acc s =>
      match calculateSessionScore s with
      | some sc => (acc.1 + sc, acc.2 + 1)
      | none => acc) (0, 0)
  let averageScore : ℤ :=
    if 0 < scoreAcc.2 then jsRound ((scoreAcc.1 : ℚ) / scoreAcc.2) else 0
  let domainsProgress := accumulated.2.map (fun p =>
    if 0 < p.2.questionsAnswered then
      let avg := jsRound ((p.2.correctAnswers : ℚ) / p.2.questionsAnswered * 100)
      (p.1, { p.2 with averageScore := avg })
    else p)
  { totalQuestionsAnswered := totalQuestionsAnswered
    totalCorrectAnswers := accumulated.1
    totalExamsTaken := totalExamsTaken
    averageScore := averageScore
    totalStudyTime := totalStudyTime
    favoriteQuestions := favorites.map (·.id)
    domainsProgress := domainsProgress }

/-- `StatisticsService.clear()`: all totals zero, every domain entry reset. -/
def clearStatistics : UserStatistics :=
  { totalQuestionsAnswered := 0
    totalCorrectAnswers := 0
    totalExamsTaken := 0
    averageScore := 0
    totalStudyTime := 0
    favoriteQuestions := []
    domainsProgress := dpInit }

-- ============================================
-- StorageService: settings and export/import
-- ============================================

/-- `DEFAULT_SETTINGS` (its `updatedAt: new Date()` modelled as time 0). -/
def DEFAULT_SETTINGS : UserSettings :=
  { apiKey := ""
    model := "z-ai/glm-4.5-air:free"
    defaultModel := "z-ai/glm-4.5-air:free"
    notifyOnComplete := true
    offlineQuestionsPerDomain := 10
    onboardingCompleted := false
    updatedAt := 0 }

/-- The state touched by `exportUserData` / `importUserData`: the stored
settings record (none when never saved) and the favorites object store. -/
structure BackupState where
  settings : Option UserSettings
  favorites : List (String × Question)
deriving DecidableEq, Repr

/-- `StorageService.getSettings()`: the stored record, or `DEFAULT_SETTINGS`
when none exists.  (The in-memory cache always mirrors the store in a
sequential run.) -/
def getSettings (st : BackupState) : UserSettings :=
  st.settings.getD DEFAULT_SETTINGS

/-- `StorageService.saveSettings(settings)`: stores the record with
`updatedAt` replaced by the current time. -/
def saveSettings (st : BackupState) (s : UserSettings) (now : ℤ) : BackupState :=
  { st with settings := some { s with updatedAt := now } }

/-- The JSON document produced by `exportUserData`. -/
structure ExportData where
  version : ℕ
  exportedAt : ℤ
  settings : UserSettings
  favorites : List Question
deriving DecidableEq, Repr

/-- `StorageService.exportUserData()`: the current settings and all stored
favorites, with `version: 1` and the export time. -/
def exportUserData (st : BackupState) (now : ℤ) : ExportData :=
  { version := 1
    exportedAt := now
    settings := getSettings st
    favorites := storeValues st.favorites }

/-- `StorageService.importUserData(jsonData)` on a well-formed document:
`saveSettings(data.settings)`, then `clearFavorites()` followed by
`addFavorite` for each exported favorite, in order. -/
def importUserData (st : BackupState) (data : ExportData) (now : ℤ) :
    BackupState :=
  let st1 := saveSettings st data.settings now
  { st1 with favorites := data.favorites.foldl addFavorite [] }

-- ============================================
-- Store lemmas
-- ============================================

theorem storeGet_storePut_self {α : Type} (l : List (String × α)) (k : String)
    (v : α) : storeGet (storePut l k v) k = some v := by
  induction l with
  | nil => simp [storePut, storeGet]
  | cons p rest ih =>
    by_cases h : p.1 = k
    · simp [storePut, storeGet, h]
    · simp [storePut, storeGet, h, ih]

theorem storeGet_eq_none_iff {α : Type} (l : List (String × α)) (k : String) :
    storeGet l k = none ↔ ∀ p ∈ l, p.1 ≠ k := by
  induction l with
  | nil => simp [storeGet]
  | cons p rest ih =>
    by_cases h : p.1 = k
    · simp [storeGet, h]
    · simp [storeGet, h, ih]

theorem storePut_of_get_none {α : Type} (l : List (String × α)) (k : String)
    (v : α) (h : storeGet l k = none) : storePut l k v = l ++ [(k, v)] := by
  induction l with
  | nil => simp [storePut]
  | cons p rest ih =>
    rw [storeGet_eq_none_iff] at h
    have hp : p.1 ≠ k := h p (by simp)
    have hrest : storeGet rest k = none := by
      rw [storeGet_eq_none_iff]
      exact fun q hq => h q (by simp [hq])
    simp [storePut, hp, ih hrest]

theorem storeDelete_append_single {α : Type} (l : List (String × α))
    (k : String) (v : α) (h : storeGet l k = none) :
    storeDelete (l ++ [(k, v)]) k = l := by
  rw [storeGet_eq_none_iff] at h
  simp only [storeDelete, List.filter_append]
  rw [List.filter_eq_self.2 (fun p hp => by simpa using h p hp)]
  simp

-- ============================================
-- Concrete fixtures for counterexamples and witnesses
-- ============================================

/-- A concrete question with id `q1` (two options, the first correct). -/
def qc1 : Question :=
  ⟨"q1", .NLP, .SINGLE_CHOICE, "Q1?", [⟨"a1", "A", true⟩, ⟨"a2", "B", false⟩],
   "", .medium, [], 0⟩

/-- A concrete question with id `q2` (two options, the first correct). -/
def qc2 : Question :=
  ⟨"q2", .NLP, .SINGLE_CHOICE, "Q2?", [⟨"a3", "A", true⟩, ⟨"a4", "B", false⟩],
   "", .medium, [], 0⟩

/-- A correct user answer for `qc1`. -/
def uac1 : UserAnswer := ⟨"q1", ["a1"], true, 10, false⟩

/-- A completed two-question session in which only `qc1` was answered
(correctly). -/
def sessionC : QuizSession :=
  ⟨"s1", .practice, none, [qc1, qc2], [("q1", uac1)], 0, .COMPLETED, 0,
   some 60000, none, none, none⟩

-- ============================================
-- C7: add/remove favorite round trip
-- ============================================

/-- C7 counterexample: when the question is already a favorite, adding it
again and then removing it empties the store instead of restoring the prior
state: the claim fails for the favorites state `[("q1", qc1)]`. -/
theorem claim7_counterexample :
    removeFavorite (addFavorite [("q1", qc1)] qc1) qc1.id ≠ [("q1", qc1)] := by
  simp [addFavorite, removeFavorite, storePut, storeDelete, qc1]

/-- C7 (amended): `addFavorite(q)` followed by `removeFavorite(q.id)` restores
the favorites store, provided `q.id` was not already a favorite key. -/
theorem claim7_add_remove_favorite (favorites : List (String × Question))
    (q : Question) (h : storeGet favorites q.id = none) :
    removeFavorite (addFavorite favorites q) q.id = favorites := by
  unfold addFavorite removeFavorite
  rw [storePut_of_get_none favorites q.id q h]
  exact storeDelete_append_single favorites q.id q h

/-- C7 witness: the amended theorem applied to the empty favorites store. -/
theorem claim7_witness :
    storeGet ([] : List (String × Question)) qc1.id = none ∧
    removeFavorite (addFavorite [] qc1) qc1.id = [] :=
  ⟨rfl, claim7_add_remove_favorite [] qc1 rfl⟩

-- ============================================
-- C8: save/get session round trip
-- ============================================

/-- C8: `saveSession(s)` followed by `getSession(s.id)` returns `s` itself, so
in particular the question list and the user-answer map are preserved. -/
theorem claim8_save_get_session (sessions : List (String × QuizSession))
    (s : QuizSession) :
    getSession (saveSession sessions s) s.id = some s ∧
    (getSession (saveSession sessions s) s.id).map QuizSession.questions
      = some s.questions ∧
    (getSession (saveSession sessions s) s.id).map QuizSession.userAnswers
      = some s.userAnswers := by
  have h : getSession (saveSession sessions s) s.id = some s :=
    storeGet_storePut_self sessions s.id s
  exact ⟨h, by rw [h]; rfl, by rw [h]; rfl⟩

-- ============================================
-- C9: calculatePercentage / calculateScore totality
-- ============================================

/-- C9: both helpers return 0 when the total is 0 (the division is guarded),
and for a positive total both return `Math.round((value / total) * 100)`. -/
theorem claim9_percentage_totality (v t : ℤ) :
    calculatePercentage (v : ℚ) 0 = 0 ∧ calculateScore (v : ℚ) 0 = 0 ∧
    (0 < t →
      calculatePercentage (v : ℚ) (t : ℚ) = jsRound ((v : ℚ) / (t : ℚ) * 100) ∧
      calculateScore (v : ℚ) (t : ℚ) = jsRound ((v : ℚ) / (t : ℚ) * 100)) := by
  refine ⟨by simp [calculatePercentage], by simp [calculateScore], fun ht => ?_⟩
  have h0 : (t : ℚ) ≠ 0 := by exact_mod_cast ht.ne'
  exact ⟨by simp [calculatePercentage, h0], by simp [calculateScore, h0]⟩

/-- C9 witness: the positive-total branch at `value = 1`, `total = 3`. -/
theorem claim9_witness :
    (0 : ℤ) < 3 ∧
    calculatePercentage ((1 : ℤ) : ℚ) ((3 : ℤ) : ℚ)
      = jsRound (((1 : ℤ) : ℚ) / ((3 : ℤ) : ℚ) * 100) :=
  ⟨by decide, ((claim9_percentage_totality 1 3).2.2 (by decide)).1⟩

-- ============================================
-- C2: session score denominator
-- ============================================

/-- The number of questions of a session that were answered correctly
(an answer entry exists and `isCorrect` holds). -/
def correctCount (s : QuizSession) : ℕ :=
  (s.questions.filter (fun q =>
    match recordGet s.userAnswers q.id with
    | some ua => ua.isCorrect
    | none => false)).length

/-- The number of questions of a session that have an answer entry. -/
def answeredCount (s : QuizSession) : ℕ :=
  (s.questions.filter (fun q => (recordGet s.userAnswers q.id).isSome)).length

theorem sessionCounts_foldl (ua : List (String × UserAnswer))
    (qs : List Question) (a b : ℕ) :
    qs.foldl
      (fun acc q =>
        match recordGet ua q.id with
        | some u => ((acc.1 + if u.isCorrect then 1 else 0), acc.2 + 1)
        | none => acc)
      (a, b)
    = (a + (qs.filter (fun q =>
        match recordGet ua q.id with
        | some u => u.isCorrect
        | none => false)).length,
       b + (qs.filter (fun q => (recordGet ua q.id).isSome)).length) := by
  induction qs generalizing a b with
  | nil => simp
  | cons q rest ih =>
    cases h : recordGet ua q.id with
    | none => simp [h, ih]
    | some u =>
      by_cases hc : u.isCorrect
      · simp [h, hc, ih, Nat.add_assoc, Nat.add_comm 1]
      · simp [h, hc, ih, Nat.add_assoc, Nat.add_comm 1]

theorem sessionCounts_eq (s : QuizSession) :
    sessionCounts s = (correctCount s, answeredCount s) := by
  unfold sessionCounts correctCount answeredCount
  rw [sessionCounts_foldl]
  simp

/-- C2 counterexample: for the completed session `sessionC` (2 questions, 1
answered, correctly), `calculateSessionScore` returns 100, not
`Math.round((1 / 2) * 100) = 50`: the denominator is not the session's full
question count. -/
theorem claim2_counterexample :
    calculateSessionScore sessionC ≠
      some (jsRound ((correctCount sessionC : ℚ)
        / (sessionC.questions.length : ℚ) * 100)) := by
  have h1 : calculateSessionScore sessionC = some 100 := by
    norm_num [calculateSessionScore, sessionCounts, sessionC, qc1, qc2, uac1,
      recordGet, jsRound, Rat.floor_def,
      show ("q1" : String) ≠ "q2" from by decide]
  have h2 : correctCount sessionC = 1 := by
    norm_num [correctCount, sessionC, qc1, qc2, uac1, recordGet,
      show ("q1" : String) ≠ "q2" from by decide]
  have h3 : sessionC.questions.length = 2 := by
    norm_num [sessionC]
  rw [h1, h2, h3]
  norm_num [jsRound, Rat.floor_def]

/-- C2 (amended): for a session with at least one answered question,
`calculateSessionScore` equals `Math.round((correct / answered) * 100)` where
the denominator is the number of answered questions (not the full question
count); with no answered question it returns null. -/
theorem claim2_session_score (s : QuizSession) :
    (0 < answeredCount s →
      calculateSessionScore s =
        some (jsRound ((correctCount s : ℚ) / (answeredCount s : ℚ) * 100))) ∧
    (answeredCount s = 0 → calculateSessionScore s = none) := by
  unfold calculateSessionScore
  rw [sessionCounts_eq]
  constructor
  · intro h
    simp [h]
  · intro h
    simp [h]

/-- C2 witness: the amended theorem applied to `sessionC`. -/
theorem claim2_witness :
    0 < answeredCount sessionC ∧
    calculateSessionScore sessionC =
      some (jsRound ((correctCount sessionC : ℚ)
        / (answeredCount sessionC : ℚ) * 100)) :=
  ⟨by decide, (claim2_session_score sessionC).1 (by decide)⟩

-- ============================================
-- C5: missing API key and status mapping
-- ============================================

/-- C5: with an empty stored API key, `generateQuestionsBatch` issues no
provider call and fails with a non-retryable error; `handleAPIError` maps
status 401/403 to a non-retryable INVALID_API_KEY error, and 429 and statuses
>= 500 to retryable errors. -/
theorem claim5_api_key_and_status (qid : ℕ → String) (aid : ℕ → ℕ → String)
    (domain : Domain) (fetchAttempt : ℕ → Except RawError ChatResponse) :
    ((generateQuestionsBatch "" qid aid domain fetchAttempt).1 = 0 ∧
      (generateQuestionsBatch "" qid aid domain fetchAttempt).2 =
        .error ⟨"API key not configured. Please complete onboarding.",
          none, none, false⟩) ∧
    (∀ dm m, handleAPIError (.response 401 dm m) =
        ⟨"Invalid API key. Please check your configuration.",
          some "INVALID_API_KEY", some 401, false⟩ ∧
      handleAPIError (.response 403 dm m) =
        ⟨"Invalid API key. Please check your configuration.",
          some "INVALID_API_KEY", some 403, false⟩) ∧
    (∀ dm m, (handleAPIError (.response 429 dm m)).code = some "RATE_LIMIT" ∧
      (handleAPIError (.response 429 dm m)).isRetryable = true) ∧
    (∀ status dm m, 500 ≤ status →
      (handleAPIError (.response status dm m)).code = some "SERVER_ERROR" ∧
      (handleAPIError (.response status dm m)).isRetryable = true) := by
  refine ⟨⟨?_, ?_⟩, fun dm m => ⟨?_, ?_⟩, fun dm m => ⟨?_, ?_⟩,
    fun status dm m h => ?_⟩
  · simp [generateQuestionsBatch]
  · simp [generateQuestionsBatch, handleAPIError, jsOrString]
  · simp [handleAPIError]
  · simp [handleAPIError]
  · simp [handleAPIError]
  · simp [handleAPIError]
  · have h1 : status ≠ 429 := by omega
    have h2 : status ≠ 401 := by omega
    have h3 : status ≠ 403 := by omega
    simp [handleAPIError, h1, h2, h3, h]

/-- C5 witness: the status >= 500 branch at 503 (with concrete supplies). -/
theorem claim5_witness :
    (500 : ℕ) ≤ 503 ∧
    (handleAPIError (.response 503 none none)).code = some "SERVER_ERROR" ∧
    (handleAPIError (.response 503 none none)).isRetryable = true :=
  ⟨by decide,
    (claim5_api_key_and_status (fun _ => "") (fun _ _ => "") .NLP
      (fun _ => .error (.plain none))).2.2.2 503 none none (by decide)⟩

-- ============================================
-- C6: export/import round trip
-- ============================================

theorem foldl_addFavorite_restore (l : List (String × Question)) :
    ∀ acc : List (String × Question), (storeKeys l).Nodup →
    (∀ p ∈ l, p.1 = p.2.id) → (∀ p ∈ l, storeGet acc p.1 = none) →
    (storeValues l).foldl addFavorite acc = acc ++ l := by
  induction l with
  | nil => intro acc _ _ _; simp [storeValues]
  | cons p rest ih =>
    intro acc hnd hid hdisj
    obtain ⟨k, v⟩ := p
    have hk : k = v.id := hid (k, v) (by simp)
    have hacc : storeGet acc v.id = none := by
      have := hdisj (k, v) (by simp)
      simpa [hk] using this
    have hstep : addFavorite acc v = acc ++ [(k, v)] := by
      rw [addFavorite, storePut_of_get_none acc v.id v hacc, hk]
    have hnd0 : (k :: storeKeys rest).Nodup := by simpa [storeKeys] using hnd
    have hnd' : (storeKeys rest).Nodup := (List.nodup_cons.1 hnd0).2
    have hknotin : k ∉ storeKeys rest := (List.nodup_cons.1 hnd0).1
    have hdisj' : ∀ q ∈ rest, storeGet (acc ++ [(k, v)]) q.1 = none := by
      intro q hq
      rw [storeGet_eq_none_iff]
      intro r hr
      rcases List.mem_append.1 hr with hr | hr
      · exact (storeGet_eq_none_iff acc q.1).1 (hdisj q (by simp [hq])) r hr
      · simp only [List.mem_singleton] at hr
        subst hr
        intro hkq
        have hk2 : k = q.1 := hkq
        have hqmem : q.1 ∈ storeKeys rest := List.mem_map_of_mem Prod.fst hq
        exact hknotin (by rw [hk2]; exact hqmem)
    calc (storeValues ((k, v) :: rest)).foldl addFavorite acc
        = (storeValues rest).foldl addFavorite (addFavorite acc v) := by
          simp [storeValues]
      _ = (acc ++ [(k, v)]) ++ rest := by
          rw [hstep]; exact ih (acc ++ [(k, v)]) hnd' (fun q hq => hid q (by simp [hq])) hdisj'
      _ = acc ++ ((k, v) :: rest) := by simp

/-- The concrete settings record used in the C6 counterexample
(saved at time 5). -/
def settingsC : UserSettings :=
  { DEFAULT_SETTINGS with apiKey := "k", updatedAt := 5 }

/-- The concrete backup state used in the C6 counterexample. -/
def backupC : BackupState := ⟨some settingsC, []⟩

/-- C6 counterexample: exporting at time 5 and importing at time 6 does not
restore the settings record: `saveSettings` overwrites `updatedAt` with the
time of the import, so the stored settings differ from those at export time. -/
theorem claim6_counterexample :
    (importUserData backupC (exportUserData backupC 5) 6).settings ≠
      backupC.settings := by
  decide

/-- C6 (amended): export followed by import restores the favorites store
exactly, and restores every settings field except `updatedAt`, which is set
to the import time (the favorites store must be well formed: distinct keys,
each entry keyed by its question's id). -/
theorem claim6_export_import (st : BackupState) (tExp now : ℤ)
    (hnd : (storeKeys st.favorites).Nodup)
    (hid : ∀ p ∈ st.favorites, p.1 = p.2.id) :
    (importUserData st (exportUserData st tExp) now).favorites = st.favorites ∧
    getSettings (importUserData st (exportUserData st tExp) now) =
      { getSettings st with updatedAt := now } := by
  constructor
  · have := foldl_addFavorite_restore st.favorites [] hnd hid
      (fun p _ => rfl)
    simpa [importUserData, exportUserData, saveSettings] using this
  · simp [importUserData, exportUserData, saveSettings, getSettings]

/-- C6 witness: the amended theorem applied to a one-favorite store. -/
theorem claim6_witness :
    (storeKeys (⟨none, [("q1", qc1)]⟩ : BackupState).favorites).Nodup ∧
    (∀ p ∈ (⟨none, [("q1", qc1)]⟩ : BackupState).favorites, p.1 = p.2.id) ∧
    (importUserData ⟨none, [("q1", qc1)]⟩
        (exportUserData ⟨none, [("q1", qc1)]⟩ 5) 6).favorites
      = [("q1", qc1)] ∧
    getSettings (importUserData ⟨none, [("q1", qc1)]⟩
        (exportUserData ⟨none, [("q1", qc1)]⟩ 5) 6)
      = { getSettings ⟨none, [("q1", qc1)]⟩ with updatedAt := 6 } :=
  ⟨by decide, by decide,
    (claim6_export_import ⟨none, [("q1", qc1)]⟩ 5 6 (by decide) (by decide)).1,
    (claim6_export_import ⟨none, [("q1", qc1)]⟩ 5 6 (by decide) (by decide)).2⟩

-- ============================================
-- C3: retryWithBackoff behaviour
-- ============================================

theorem retryAux_attempts_le {ε α : Type} (attempt : ℕ → Except ε α)
    (R D : ℕ) : ∀ fuel i, (retryAux attempt R D i fuel).attempts ≤ fuel := by
  intro fuel
  induction fuel with
  | zero => intro i; simp [retryAux]
  | succ m ih =>
    intro i
    unfold retryAux
    cases attempt i with
    | ok a => simp
    | error e =>
      by_cases hi : i = R - 1
      · simp [hi]
      · simpa [hi] using Nat.succ_le_succ (ih (i + 1))

theorem cons_delay_range (D i m : ℕ) (h : 1 ≤ m) :
    D * 2 ^ i :: (List.range (m - 1)).map (fun k => D * 2 ^ (i + 1 + k)) =
    (List.range m).map (fun k => D * 2 ^ (i + k)) := by
  obtain ⟨m', rfl⟩ : ∃ m', m = m' + 1 := ⟨m - 1, by omega⟩
  rw [List.range_succ_eq_map, List.map_cons, List.map_map, Nat.add_sub_cancel]
  have h2 : ∀ k ∈ List.range m', D * 2 ^ (i + 1 + k)
      = ((fun k => D * 2 ^ (i + k)) ∘ Nat.succ) k := by
    intro k _
    show D * 2 ^ (i + 1 + k) = D * 2 ^ (i + (k + 1))
    congr 2
    omega
  rw [List.map_congr_left h2]
  simp

theorem retryAux_all_fail {ε α : Type} (attempt : ℕ → Except ε α)
    (R D : ℕ) (e : ℕ → ε) (hfail : ∀ j, j < R → attempt j = .error (e j)) :
    ∀ n i, i + n = R → 1 ≤ n →
    retryAux attempt R D i n =
      ⟨n, (List.range (n - 1)).map (fun k => D * 2 ^ (i + k)),
        .err (e (R - 1))⟩ := by
  intro n
  induction n with
  | zero => intro i _ h1; omega
  | succ m ih =>
    intro i hiR _
    unfold retryAux
    rw [hfail i (by omega)]
    by_cases hi : i = R - 1
    · have hm : m = 0 := by omega
      subst hm
      simp [hi]
    · have hm : 1 ≤ m := by omega
      have ihh := ih (i + 1) (by omega) hm
      simp only [hi, if_false, ihh, Nat.add_sub_cancel]
      rw [← cons_delay_range D i m hm]

theorem retryAux_first_ok {ε α : Type} (attempt : ℕ → Except ε α)
    (R D : ℕ) (j : ℕ) (a : α) (hj : attempt j = .ok a)
    (hbefore : ∀ k, k < j → ∀ b, attempt k ≠ .ok b) :
    ∀ n i, i + n = R → i ≤ j → j < R →
    retryAux attempt R D i n =
      ⟨j - i + 1, (List.range (j - i)).map (fun k => D * 2 ^ (i + k)),
        .ok a⟩ := by
  intro n
  induction n with
  | zero => intro i hiR hij hjR; omega
  | succ m ih =>
    intro i hiR hij hjR
    unfold retryAux
    by_cases hji : i = j
    · subst hji
      rw [hj]
      simp
    · have hilt : i < j := lt_of_le_of_ne hij hji
      cases h : attempt i with
      | ok b => exact absurd h (hbefore i hilt b)
      | error e' =>
        have hi : i ≠ R - 1 := by omega
        have ihh := ih (i + 1) (by omega) (by omega) hjR
        have hm : 1 ≤ j - i := by omega
        simp only [hi, if_false, ihh]
        rw [show j - (i + 1) = j - i - 1 from by omega]
        rw [cons_delay_range D i (j - i) hm]
        rw [show j - i - 1 + 1 + 1 = j - i + 1 from by omega]

/-- C3: `retryWithBackoff` with budget `R` and base delay `D` invokes the
wrapped function at most `R` times (`MAX_RETRIES = 3` for generation calls);
the delay slept before attempt `i + 1` is `D * 2 ^ i`; if every attempt
fails, the final attempt's error is rethrown after `R` attempts; if attempt
`j` is the first to succeed, its value is returned after `j + 1` attempts and
no further attempts occur. -/
theorem claim3_retry_backoff {ε α : Type} (attempt : ℕ → Except ε α)
    (R D : ℕ) :
    MAX_RETRIES = 3 ∧
    (retryWithBackoff attempt R D).attempts ≤ R ∧
    (∀ e : ℕ → ε, (∀ j, j < R → attempt j = .error (e j)) → 1 ≤ R →
      retryWithBackoff attempt R D =
        ⟨R, (List.range (R - 1)).map (fun k => D * 2 ^ k),
          .err (e (R - 1))⟩) ∧
    (∀ j a, attempt j = .ok a → (∀ k, k < j → ∀ b, attempt k ≠ .ok b) →
      j < R →
      retryWithBackoff attempt R D =
        ⟨j + 1, (List.range j).map (fun k => D * 2 ^ k), .ok a⟩) := by
  refine ⟨rfl, retryAux_attempts_le attempt R D R 0, fun e hfail h1 => ?_,
    fun j a hj hbefore hjR => ?_⟩
  · rw [retryWithBackoff, retryAux_all_fail attempt R D e hfail R 0 (by omega) h1]
    simp
  · rw [retryWithBackoff,
      retryAux_first_ok attempt R D j a hj hbefore R 0 (by omega) (by omega) hjR]
    simp

/-- C3 witness: a run whose second attempt succeeds (budget 3, base delay
1000): two attempts, one delay of `1000 * 2 ^ 0`. -/
theorem claim3_witness :
    retryWithBackoff (fun i => if i = 1 then (.ok 5 : Except ℕ ℕ) else .error 7)
        3 1000 =
      ⟨1 + 1, (List.range 1).map (fun k => 1000 * 2 ^ k), .ok 5⟩ :=
  (claim3_retry_backoff (fun i => if i = 1 then (.ok 5 : Except ℕ ℕ) else .error 7)
      3 1000).2.2.2 1 5 rfl
    (by
      intro k hk b h
      have hk0 : k = 0 := by omega
      subst hk0
      simp at h)
    (by decide)

-- ============================================
-- C1: batch structure of generateQuestions
-- ============================================

theorem batchSizes_length (count : ℕ) :
    (batchSizes count).length = calculateBatches count BATCH_SIZE := by
  simp [batchSizes]

theorem batchSizes_get (count i : ℕ) (hi : i < (batchSizes count).length) :
    (batchSizes count).get ⟨i, hi⟩ = min BATCH_SIZE (count - i * BATCH_SIZE) := by
  simp [batchSizes]

theorem batchSizes_decomp (count : ℕ) (h : BATCH_SIZE < count) :
    batchSizes count = BATCH_SIZE :: batchSizes (count - BATCH_SIZE) := by
  have hceil : calculateBatches count BATCH_SIZE
      = calculateBatches (count - BATCH_SIZE) BATCH_SIZE + 1 := by
    simp only [calculateBatches, BATCH_SIZE] at h ⊢
    omega
  unfold batchSizes
  rw [hceil, List.range_succ_eq_map, List.map_cons, List.map_map]
  congr 1
  · simp only [BATCH_SIZE] at h ⊢
    omega
  · apply List.map_congr_left
    intro k _
    show min BATCH_SIZE (count - (k + 1) * BATCH_SIZE)
        = min BATCH_SIZE (count - BATCH_SIZE - k * BATCH_SIZE)
    simp only [BATCH_SIZE]
    omega

theorem batchSizes_sum (count : ℕ) : (batchSizes count).sum = count := by
  induction count using Nat.strong_induction_on with
  | _ count ih =>
    by_cases h0 : count = 0
    · subst h0
      simp [batchSizes, calculateBatches, BATCH_SIZE]
    · by_cases h10 : count ≤ BATCH_SIZE
      · have hceil : calculateBatches count BATCH_SIZE = 1 := by
          simp only [calculateBatches, BATCH_SIZE] at h10 ⊢
          omega
        have hval : batchSizes count = [min BATCH_SIZE (count - 0 * BATCH_SIZE)] := by
          simp [batchSizes, hceil, show List.range 1 = [0] from rfl]
        rw [hval]
        simp only [List.sum_cons, List.sum_nil, BATCH_SIZE] at h10 ⊢
        omega
      · push_neg at h10
        rw [batchSizes_decomp count h10, List.sum_cons,
          ih (count - BATCH_SIZE) (by simp only [BATCH_SIZE] at h10 ⊢; omega)]
        simp only [BATCH_SIZE] at h10 ⊢
        omega

theorem map_range_shift {β : Type} (g g' : ℕ → β) (m : ℕ)
    (h : ∀ k, g (k + 1) = g' k) :
    (List.range (m + 1)).map g = g 0 :: (List.range m).map g' := by
  rw [List.range_succ_eq_map, List.map_cons, List.map_map]
  congr 1
  apply List.map_congr_left
  intro k _
  exact h k

theorem genBatchesAux_all_ok (provider : ℕ → ℕ → Except APIError (List Question))
    (count : ℕ) (qs : ℕ → List Question) :
    ∀ fuel i,
    (∀ k, k < fuel →
      provider (i + k) (min BATCH_SIZE (count - (i + k) * BATCH_SIZE))
        = .ok (qs (i + k))) →
    genBatchesAux provider count i fuel =
      ((List.range fuel).map (fun k => min BATCH_SIZE (count - (i + k) * BATCH_SIZE)),
       .ok (((List.range fuel).map (fun k => qs (i + k))).flatten)) := by
  intro fuel
  induction fuel with
  | zero => intro i _; simp [genBatchesAux]
  | succ fuel ih =>
    intro i h
    have h0 := h 0 (Nat.succ_pos fuel)
    simp only [Nat.add_zero] at h0
    have ihh := ih (i + 1) (fun k hk => by
      have := h (k + 1) (by omega)
      rwa [show i + (k + 1) = i + 1 + k from by omega] at this)
    unfold genBatchesAux
    simp only [h0, ihh]
    rw [map_range_shift (fun k => min BATCH_SIZE (count - (i + k) * BATCH_SIZE))
      (fun k => min BATCH_SIZE (count - (i + 1 + k) * BATCH_SIZE)) fuel
      (fun k => by
        show min BATCH_SIZE (count - (i + (k + 1)) * BATCH_SIZE)
            = min BATCH_SIZE (count - (i + 1 + k) * BATCH_SIZE)
        rw [show i + (k + 1) = i + 1 + k from by omega])]
    rw [map_range_shift (fun k => qs (i + k)) (fun k => qs (i + 1 + k)) fuel
      (fun k => by
        show qs (i + (k + 1)) = qs (i + 1 + k)
        rw [show i + (k + 1) = i + 1 + k from by omega])]
    simp

theorem genBatchesAux_fail (provider : ℕ → ℕ → Except APIError (List Question))
    (count : ℕ) (j : ℕ) (e : APIError)
    (hj : provider j (min BATCH_SIZE (count - j * BATCH_SIZE)) = .error e)
    (hbefore : ∀ k, k < j →
      ∃ qsk, provider k (min BATCH_SIZE (count - k * BATCH_SIZE)) = .ok qsk) :
    ∀ fuel i, i ≤ j → j < i + fuel →
    (genBatchesAux provider count i fuel).2 = .error e ∧
    (genBatchesAux provider count i fuel).1.length = j - i + 1 := by
  intro fuel
  induction fuel with
  | zero => intro i h1 h2; omega
  | succ fuel ih =>
    intro i h1 h2
    by_cases hij : i = j
    · subst hij
      unfold genBatchesAux
      simp [hj]
    · have hilt : i < j := lt_of_le_of_ne h1 hij
      obtain ⟨qsk, hok⟩ := hbefore i hilt
      have ihh := ih (i + 1) (by omega) (by omega)
      unfold genBatchesAux
      simp only [hok]
      rcases hres : genBatchesAux provider count (i + 1) fuel with ⟨trace, res⟩
      rw [hres] at ihh
      simp only at ihh
      obtain ⟨h2, h3⟩ := ihh
      subst h2
      simp only [hres]
      refine ⟨by trivial, ?_⟩
      show trace.length + 1 = j - i + 1
      omega

/-- C1 counterexample: a provider call that succeeds with 2 records for a
requested batch of 1 makes `generateQuestions` succeed with 2 records for
`N = 1`; the loop does not validate batch result sizes, so success does not
guarantee exactly N records. -/
theorem claim1_counterexample :
    (generateQuestions (fun _ _ => .ok [qc1, qc2]) 1).2 = .ok [qc1, qc2] ∧
    [qc1, qc2].length ≠ 1 := by
  constructor
  · simp [generateQuestions, genBatchesAux, calculateBatches, BATCH_SIZE]
  · simp

/-- C1 (amended): for `N >= 1`, `generateQuestions` issues one
`generateQuestionsBatch` call per batch — `⌈N / BATCH_SIZE⌉` calls when all
succeed, with every requested batch size equal to `BATCH_SIZE` except a
smaller positive final batch, the sizes summing to `N` — and returns the
concatenation of the batch results, which has exactly `N` records when every
call returns as many records as requested (the code does not check this);
the first batch failure is rethrown and stops the loop. -/
theorem claim1_generation_batches (count : ℕ) (hcount : 1 ≤ count) :
    (batchSizes count).length = calculateBatches count BATCH_SIZE ∧
    (batchSizes count).sum = count ∧
    (∀ i (hi : i < (batchSizes count).length),
      0 < (batchSizes count).get ⟨i, hi⟩ ∧
      (batchSizes count).get ⟨i, hi⟩ ≤ BATCH_SIZE ∧
      (i + 1 < (batchSizes count).length →
        (batchSizes count).get ⟨i, hi⟩ = BATCH_SIZE)) ∧
    (∀ (provider : ℕ → ℕ → Except APIError (List Question))
        (qs : ℕ → List Question),
      (∀ k, k < calculateBatches count BATCH_SIZE →
        provider k (min BATCH_SIZE (count - k * BATCH_SIZE)) = .ok (qs k)) →
      generateQuestions provider count =
        (batchSizes count,
          .ok (((List.range (calculateBatches count BATCH_SIZE)).map qs).flatten)) ∧
      ((∀ k, k < calculateBatches count BATCH_SIZE →
          (qs k).length = min BATCH_SIZE (count - k * BATCH_SIZE)) →
        ∀ result, (generateQuestions provider count).2 = .ok result →
          result.length = count)) ∧
    (∀ (provider : ℕ → ℕ → Except APIError (List Question)) (j : ℕ)
        (e : APIError),
      provider j (min BATCH_SIZE (count - j * BATCH_SIZE)) = .error e →
      (∀ k, k < j →
        ∃ qsk, provider k (min BATCH_SIZE (count - k * BATCH_SIZE)) = .ok qsk) →
      j < calculateBatches count BATCH_SIZE →
      (generateQuestions provider count).2 = .error e ∧
      (generateQuestions provider count).1.length = j + 1) := by
  refine ⟨batchSizes_length count, batchSizes_sum count, ?_, ?_, ?_⟩
  · intro i hi
    rw [batchSizes_get count i hi]
    have hlen : (batchSizes count).length = (count + BATCH_SIZE - 1) / BATCH_SIZE := by
      rw [batchSizes_length]; rfl
    rw [hlen] at hi
    refine ⟨?_, Nat.min_le_left _ _, ?_⟩
    · simp only [BATCH_SIZE] at hi ⊢
      omega
    · intro hi1
      rw [hlen] at hi1
      simp only [BATCH_SIZE] at hi1 ⊢
      omega
  · intro provider qs hok
    have hmain := genBatchesAux_all_ok provider count qs
      (calculateBatches count BATCH_SIZE) 0
      (fun k hk => by simpa using hok k hk)
    have e1 : (fun k => min BATCH_SIZE (count - (0 + k) * BATCH_SIZE))
        = fun k => min BATCH_SIZE (count - k * BATCH_SIZE) := by
      funext k; simp
    have e2 : (fun k => qs (0 + k)) = qs := by funext k; simp
    rw [e1, e2] at hmain
    have hgen : generateQuestions provider count =
        (batchSizes count,
          .ok (((List.range (calculateBatches count BATCH_SIZE)).map qs).flatten)) := by
      show genBatchesAux provider count 0 (calculateBatches count BATCH_SIZE) = _
      rw [hmain]
      rfl
    refine ⟨hgen, ?_⟩
    intro hlen result hres
    rw [hgen] at hres
    simp only at hres
    have hresult : result
        = ((List.range (calculateBatches count BATCH_SIZE)).map qs).flatten := by
      exact (Except.ok.injEq _ _ ▸ hres).symm
    subst hresult
    rw [List.length_flatten, List.map_map]
    have hcongr : (List.range (calculateBatches count BATCH_SIZE)).map
          (List.length ∘ qs)
        = (List.range (calculateBatches count BATCH_SIZE)).map
          (fun k => min BATCH_SIZE (count - k * BATCH_SIZE)) := by
      apply List.map_congr_left
      intro k hk
      exact hlen k (List.mem_range.1 hk)
    rw [hcongr]
    exact batchSizes_sum count
  · intro provider j e hj hbefore hjB
    have := genBatchesAux_fail provider count j e hj hbefore
      (calculateBatches count BATCH_SIZE) 0 (by omega) (by omega)
    simpa [generateQuestions] using this

/-- The compliant provider used in the C1 witness: every batch call returns
exactly the requested number of copies of `qc1`. -/
def providerW : ℕ → ℕ → Except APIError (List Question) :=
  fun _ n => .ok (List.replicate n qc1)

/-- The per-batch results of `providerW` for a request of 25 questions. -/
def qsW : ℕ → List Question :=
  fun k => List.replicate (min BATCH_SIZE (25 - k * BATCH_SIZE)) qc1

/-- C1 witness: the amended theorem at `N = 25` with the compliant provider:
the batch sizes sum to 25 and the run succeeds returning the concatenation of
the three batches. -/
theorem claim1_witness :
    (1 ≤ 25) ∧ (batchSizes 25).sum = 25 ∧
    generateQuestions providerW 25 =
      (batchSizes 25,
        .ok (((List.range (calculateBatches 25 BATCH_SIZE)).map qsW).flatten)) :=
  ⟨by decide, (claim1_generation_batches 25 (by decide)).2.1,
    ((claim1_generation_batches 25 (by decide)).2.2.2.1 providerW qsW
      (fun k _ => rfl)).1⟩

-- ============================================
-- C4: shape of parsed questions
-- ============================================

theorem enumFrom_filter_snd_length {α : Type} (p : α → Bool) :
    ∀ (l : List α) (n : ℕ),
    ((List.enumFrom n l).filter (fun ai => p ai.2)).length
      = (l.filter p).length := by
  intro l
  induction l with
  | nil => intro n; simp
  | cons a rest ih =>
    intro n
    by_cases h : p a
    · simp [List.enumFrom, List.filter_cons, h, ih]
    · simp [List.enumFrom, List.filter_cons, h, ih]

/-- The relation between a raw entry and the `Question` built from it. -/
def parsedMatches (domain : Domain) (rq : RawQuestion) (q : Question) : Prop :=
  q.domain = domain ∧ q.type = .SINGLE_CHOICE ∧ q.question = rq.question ∧
  ∃ answers, rq.answers = some answers ∧
    q.answers.length = answers.length ∧
    (q.answers.filter (fun a => a.isCorrect)).length =
      (answers.filter (fun a => jsTruthy a.isCorrect || jsTruthy a.correct)).length

theorem parseQuestionsAux_ok (qid : ℕ → String) (aid : ℕ → ℕ → String)
    (domain : Domain) :
    ∀ (rqs : List RawQuestion) (index : ℕ) (qs : List Question),
    parseQuestionsAux qid aid domain index rqs = .ok qs →
    List.Forall₂ (parsedMatches domain) rqs qs := by
  intro rqs
  induction rqs with
  | nil =>
    intro index qs h
    simp only [parseQuestionsAux] at h
    cases h
    exact List.Forall₂.nil
  | cons rq rest ih =>
    intro index qs h
    simp only [parseQuestionsAux] at h
    cases hans : rq.answers with
    | none => rw [hans] at h; cases h
    | some answers =>
      simp only [hans] at h
      by_cases hq : rq.question = ""
      · rw [if_pos hq] at h; cases h
      · rw [if_neg hq] at h
        cases hrec : parseQuestionsAux qid aid domain (index + 1) rest with
        | error e => rw [hrec] at h; cases h
        | ok qs' =>
          rw [hrec] at h
          cases h
          refine List.Forall₂.cons ?_ (ih (index + 1) qs' hrec)
          refine ⟨rfl, rfl, rfl, answers, hans, ?_, ?_⟩
          · simp [buildQuestion, List.enum]
          · show ((answers.enum.map _).filter _).length = _
            rw [List.filter_map, List.length_map, List.enum]
            show ((List.enumFrom 0 answers).filter
              (fun ai => jsTruthy ai.2.isCorrect || jsTruthy ai.2.correct)).length = _
            exact enumFrom_filter_snd_length
              (fun a => jsTruthy a.isCorrect || jsTruthy a.correct) answers 0

theorem forallShapeOfMatches (domain : Domain) :
    ∀ (rqs : List RawQuestion) (qs : List Question),
    List.Forall₂ (parsedMatches domain) rqs qs →
    (∀ rq ∈ rqs, ∀ answers, rq.answers = some answers →
      answers.length = 4 ∧
      (answers.filter (fun a =>
        jsTruthy a.isCorrect || jsTruthy a.correct)).length = 1) →
    ∀ q ∈ qs, q.answers.length = 4 ∧
      (q.answers.filter (fun a => a.isCorrect)).length = 1 := by
  intro rqs qs hfa
  induction hfa with
  | nil => intro _ q hq; cases hq
  | @cons rq q0 l1 l2 hrel hrest ih =>
    intro hshape q hq
    rcases List.mem_cons.1 hq with hq | hq
    · subst hq
      obtain ⟨_, _, _, answers, hans, hlen, hcnt⟩ := hrel
      obtain ⟨h4, h1⟩ := hshape rq (by simp) answers hans
      exact ⟨hlen.trans h4, hcnt.trans h1⟩
    · exact ih (fun rq2 hrq2 => hshape rq2 (by simp [hrq2])) q hq

/-- C4 counterexample: a response entry with only 2 answers, both flagged
correct, parses successfully into a `Question` with 2 options of which 2 are
marked correct — the parser enforces neither 4 options nor a unique correct
one. -/
theorem claim4_counterexample :
    ((parseQuestionsFromResponse (fun _ => "gen") (fun _ _ => "gen") .NLP
        [⟨"Q?", some [⟨some "t", none, some true, none⟩,
          ⟨some "u", none, some true, none⟩], none⟩]).toOption.getD []).map
      (fun q => (q.answers.length,
        (q.answers.filter (fun a => a.isCorrect)).length)) = [(2, 2)] := by
  simp [parseQuestionsFromResponse, parseQuestionsAux, buildQuestion,
    List.enum, List.enumFrom, jsOrString, jsTruthy, Except.toOption]

/-- C4 (amended): every `Question` produced by a successful parse carries the
domain, the SINGLE_CHOICE type, the entry's question text, and one answer
option per entry of the raw `answers` array, with `isCorrect` the truthiness
of the raw `isCorrect`/`correct` flags; the parser checks only that the
question text and the answers array are present, so a produced question has
exactly 4 options with exactly one marked correct precisely when its source
entry does. -/
theorem claim4_parsed_questions (qid : ℕ → String) (aid : ℕ → ℕ → String)
    (domain : Domain) (rqs : List RawQuestion) (qs : List Question)
    (h : parseQuestionsFromResponse qid aid domain rqs = .ok qs) :
    List.Forall₂ (parsedMatches domain) rqs qs ∧
    ((∀ rq ∈ rqs, ∀ answers, rq.answers = some answers →
        answers.length = 4 ∧
        (answers.filter (fun a =>
          jsTruthy a.isCorrect || jsTruthy a.correct)).length = 1) →
      ∀ q ∈ qs, q.answers.length = 4 ∧
        (q.answers.filter (fun a => a.isCorrect)).length = 1) := by
  have hfa : List.Forall₂ (parsedMatches domain) rqs qs := by
    unfold parseQuestionsFromResponse at h
    cases haux : parseQuestionsAux qid aid domain 0 rqs with
    | error e => rw [haux] at h; cases h
    | ok qs0 =>
      rw [haux] at h
      cases h
      exact parseQuestionsAux_ok qid aid domain rqs 0 _ haux
  exact ⟨hfa, forallShapeOfMatches domain rqs qs hfa⟩

/-- C4 witness: the amended theorem on a compliant entry (4 answers, exactly
one flagged correct). -/
theorem claim4_witness :
    parseQuestionsFromResponse (fun _ => "gen") (fun _ _ => "gen") .NLP
      [⟨"Q?", some [⟨some "t1", none, some false, none⟩,
        ⟨some "t2", none, some true, none⟩,
        ⟨some "t3", none, none, none⟩,
        ⟨some "t4", none, some false, none⟩], none⟩]
      = .ok [⟨"gen", .NLP, .SINGLE_CHOICE, "Q?",
        [⟨"gen", "t1", false⟩, ⟨"gen", "t2", true⟩,
         ⟨"gen", "t3", false⟩, ⟨"gen", "t4", false⟩],
        "", .medium, ["NLP"], 0⟩] ∧
    (∀ q ∈ ([⟨"gen", .NLP, .SINGLE_CHOICE, "Q?",
        [⟨"gen", "t1", false⟩, ⟨"gen", "t2", true⟩,
         ⟨"gen", "t3", false⟩, ⟨"gen", "t4", false⟩],
        "", .medium, ["NLP"], 0⟩] : List Question),
      q.answers.length = 4 ∧
        (q.answers.filter (fun a => a.isCorrect)).length = 1) := by
  have hparse : parseQuestionsFromResponse (fun _ => "gen") (fun _ _ => "gen")
      .NLP [⟨"Q?", some [⟨some "t1", none, some false, none⟩,
        ⟨some "t2", none, some true, none⟩,
        ⟨some "t3", none, none, none⟩,
        ⟨some "t4", none, some false, none⟩], none⟩]
      = .ok [⟨"gen", .NLP, .SINGLE_CHOICE, "Q?",
        [⟨"gen", "t1", false⟩, ⟨"gen", "t2", true⟩,
         ⟨"gen", "t3", false⟩, ⟨"gen", "t4", false⟩],
        "", .medium, ["NLP"], 0⟩] := by
    simp [parseQuestionsFromResponse, parseQuestionsAux, buildQuestion,
      List.enum, List.enumFrom, jsOrString, jsTruthy, domainKey]
  exact ⟨hparse,
    (claim4_parsed_questions (fun _ => "gen") (fun _ _ => "gen") .NLP _ _
      hparse).2 (by decide)⟩

-- ============================================
-- C10: domainsProgress invariant
-- ============================================

/-- The per-entry invariant: the correct count never exceeds the answered
count, and for a touched domain the stored average is
`Math.round((correctAnswers / questionsAnswered) * 100)`. -/
def progressOk (p : DomainProgress) : Prop :=
  p.correctAnswers ≤ p.questionsAnswered ∧
  (0 < p.questionsAnswered →
    p.averageScore =
      jsRound ((p.correctAnswers : ℚ) / (p.questionsAnswered : ℚ) * 100))

/-- The `domainsProgress` invariant of C10: an entry exists for every domain,
and every entry satisfies `progressOk`. -/
def dpInvariant (l : List (Domain × DomainProgress)) : Prop :=
  (∀ d ∈ allDomains, (recordGet l d).isSome) ∧ ∀ p ∈ l, progressOk p.2

/-- The weaker invariant holding during the accumulation phase of
`calculateFromScratch` (averages still stale). -/
def dpCountsOk (l : List (Domain × DomainProgress)) : Prop :=
  (∀ d ∈ allDomains, (recordGet l d).isSome) ∧
  ∀ p ∈ l, p.2.correctAnswers ≤ p.2.questionsAnswered

theorem recordGet_isSome_map {κ α : Type} [DecidableEq κ]
    (g : κ × α → κ × α) (hg : ∀ p, (g p).1 = p.1) (l : List (κ × α)) (k : κ) :
    (recordGet (l.map g) k).isSome = (recordGet l k).isSome := by
  induction l with
  | nil => simp [recordGet]
  | cons p rest ih =>
    by_cases h : p.1 = k
    · simp [recordGet, hg p, h]
    · simp [recordGet, hg p, h, ih]

theorem dpUpdate_fst (d : Domain) (f : DomainProgress → DomainProgress)
    (p : Domain × DomainProgress) :
    ((fun p => if p.1 = d then (p.1, f p.2) else p) p).1 = p.1 := by
  by_cases h : p.1 = d <;> simp [h]

theorem dpUpdate_isSome (l : List (Domain × DomainProgress)) (d : Domain)
    (f : DomainProgress → DomainProgress) (k : Domain) :
    (recordGet (dpUpdate l d f) k).isSome = (recordGet l k).isSome :=
  recordGet_isSome_map _ (dpUpdate_fst d f) l k

theorem dpInit_invariant : dpInvariant dpInit := by
  constructor
  · decide
  · intro p hp
    rcases List.mem_map.1 hp with ⟨d, _, rfl⟩
    exact ⟨le_refl 0, fun h => absurd h (by simp)⟩

theorem dpInvariant_dpUpdate_bump (l : List (Domain × DomainProgress))
    (d : Domain) (b : Bool) (h : dpInvariant l) :
    dpInvariant (dpUpdate l d (bumpProgress b)) := by
  refine ⟨?_, ?_⟩
  · intro dd hdd
    show (recordGet (dpUpdate l d (bumpProgress b)) dd).isSome = true
    rw [dpUpdate_isSome]
    exact h.1 dd hdd
  · intro p hp
    rcases List.mem_map.1 hp with ⟨p1, hp1, rfl⟩
    by_cases hpd : p1.1 = d
    · have hok := h.2 p1 hp1
      simp only [hpd, if_true]
      refine ⟨?_, fun _ => rfl⟩
      show p1.2.correctAnswers + (if b then 1 else 0) ≤ p1.2.questionsAnswered + 1
      have := hok.1
      cases b <;> simp <;> omega
    · simp only [hpd, if_false]
      exact h.2 p1 hp1

theorem updateStatsQuestion_dp (answers : List (String × UserAnswer))
    (stats : UserStatistics) (q : Question)
    (h : dpInvariant stats.domainsProgress) :
    dpInvariant (updateStatsQuestion answers stats q).domainsProgress := by
  unfold updateStatsQuestion
  cases hua : recordGet answers q.id with
  | none => exact h
  | some ua =>
    have h1 : dpInvariant
        (if ua.isCorrect then
          { stats with totalCorrectAnswers := stats.totalCorrectAnswers + 1 }
        else stats).domainsProgress := by
      by_cases hc : ua.isCorrect
      · simpa [hc] using h
      · simpa [hc] using h
    show dpInvariant
      (match recordGet (if ua.isCorrect then
          { stats with totalCorrectAnswers := stats.totalCorrectAnswers + 1 }
        else stats).domainsProgress q.domain with
      | none => (if ua.isCorrect then
          { stats with totalCorrectAnswers := stats.totalCorrectAnswers + 1 }
        else stats)
      | some _ => { (if ua.isCorrect then
          { stats with totalCorrectAnswers := stats.totalCorrectAnswers + 1 }
        else stats) with
          domainsProgress := dpUpdate (if ua.isCorrect then
            { stats with totalCorrectAnswers := stats.totalCorrectAnswers + 1 }
          else stats).domainsProgress q.domain
            (bumpProgress ua.isCorrect) }).domainsProgress
    cases recordGet (if ua.isCorrect then
        { stats with totalCorrectAnswers := stats.totalCorrectAnswers + 1 }
      else stats).domainsProgress q.domain with
    | none => exact h1
    | some p0 => exact dpInvariant_dpUpdate_bump _ q.domain ua.isCorrect h1

theorem foldl_updateStatsQuestion_dp (answers : List (String × UserAnswer)) :
    ∀ (qs : List Question) (stats : UserStatistics),
    dpInvariant stats.domainsProgress →
    dpInvariant ((qs.foldl (updateStatsQuestion answers) stats).domainsProgress) := by
  intro qs
  induction qs with
  | nil => intro stats h; exact h
  | cons q rest ih =>
    intro stats h
    exact ih (updateStatsQuestion answers stats q) (updateStatsQuestion_dp answers stats q h)

theorem dpCountsOk_dpUpdate_bump (l : List (Domain × DomainProgress))
    (d : Domain) (b : Bool) (h : dpCountsOk l) :
    dpCountsOk (dpUpdate l d (bumpCounts b)) := by
  refine ⟨?_, ?_⟩
  · intro dd hdd
    show (recordGet (dpUpdate l d (bumpCounts b)) dd).isSome = true
    rw [dpUpdate_isSome]
    exact h.1 dd hdd
  · intro p hp
    rcases List.mem_map.1 hp with ⟨p1, hp1, rfl⟩
    by_cases hpd : p1.1 = d
    · have hok := h.2 p1 hp1
      simp only [hpd, if_true]
      show (bumpCounts b p1.2).correctAnswers ≤ (bumpCounts b p1.2).questionsAnswered
      unfold bumpCounts
      cases b <;> simp <;> omega
    · simp only [hpd, if_false]
      exact h.2 p1 hp1

theorem scratchQuestion_counts (answers : List (String × UserAnswer))
    (acc : ℕ × List (Domain × DomainProgress)) (q : Question)
    (h : dpCountsOk acc.2) : dpCountsOk (scratchQuestion answers acc q).2 := by
  unfold scratchQuestion
  cases hua : recordGet answers q.id with
  | none => exact h
  | some ua =>
    show dpCountsOk
      (match recordGet acc.2 q.domain with
      | none => (acc.1 + if ua.isCorrect then 1 else 0, acc.2)
      | some _ => (acc.1 + if ua.isCorrect then 1 else 0,
          dpUpdate acc.2 q.domain (bumpCounts ua.isCorrect))).2
    cases recordGet acc.2 q.domain with
    | none => exact h
    | some p0 => exact dpCountsOk_dpUpdate_bump acc.2 q.domain ua.isCorrect h

theorem scratch_foldl_counts :
    ∀ (sessions : List QuizSession) (acc : ℕ × List (Domain × DomainProgress)),
    dpCountsOk acc.2 →
    dpCountsOk (sessions.foldl (fun acc s =>
      s.questions.foldl (scratchQuestion s.userAnswers) acc) acc).2 := by
  have hinner : ∀ (answers : List (String × UserAnswer)) (qs : List Question)
      (acc : ℕ × List (Domain × DomainProgress)), dpCountsOk acc.2 →
      dpCountsOk (qs.foldl (scratchQuestion answers) acc).2 := by
    intro answers qs
    induction qs with
    | nil => intro acc h; exact h
    | cons q rest ih =>
      intro acc h
      exact ih (scratchQuestion answers acc q) (scratchQuestion_counts answers acc q h)
  intro sessions
  induction sessions with
  | nil => intro acc h; exact h
  | cons s rest ih =>
    intro acc h
    exact ih _ (hinner s.userAnswers s.questions acc h)

theorem dpCountsOk_of_invariant (l : List (Domain × DomainProgress))
    (h : dpInvariant l) : dpCountsOk l :=
  ⟨h.1, fun p hp => (h.2 p hp).1⟩

theorem dpInvariant_finalize (l : List (Domain × DomainProgress))
    (h : dpCountsOk l) :
    dpInvariant (l.map (fun p =>
      if 0 < p.2.questionsAnswered then
        let avg := jsRound ((p.2.correctAnswers : ℚ) / p.2.questionsAnswered * 100)
        (p.1, { p.2 with averageScore := avg })
      else p)) := by
  refine ⟨?_, ?_⟩
  · intro d hd
    show (recordGet (l.map _) d).isSome = true
    rw [recordGet_isSome_map _
      (fun p => by by_cases hq : 0 < p.2.questionsAnswered <;> simp [hq]) l d]
    exact h.1 d hd
  · intro p hp
    rcases List.mem_map.1 hp with ⟨p1, hp1, rfl⟩
    have hok := h.2 p1 hp1
    by_cases hq : 0 < p1.2.questionsAnswered
    · simp only [hq, if_true]
      exact ⟨hok, fun _ => rfl⟩
    · simp only [hq, if_false]
      exact ⟨hok, fun hc => absurd hc hq⟩

/-- C10: each writer of `UserStatistics` maintains the `domainsProgress`
invariant: there are 10 domains, each with an entry, every entry has
`correctAnswers <= questionsAnswered`, and every touched entry stores
`averageScore = Math.round((correctAnswers / questionsAnswered) * 100)`:
`calculateFromScratch` and `clear` establish it from nothing,
`updateFromSession` preserves it. -/
theorem claim10_domains_progress (stats : UserStatistics)
    (session : QuizSession) (totalSessions : ℕ)
    (allSessions : List QuizSession) (favorites : List Question)
    (h : dpInvariant stats.domainsProgress) :
    allDomains.length = 10 ∧
    dpInvariant (calculateFromScratch allSessions favorites).domainsProgress ∧
    dpInvariant (updateFromSession stats session totalSessions).domainsProgress ∧
    dpInvariant clearStatistics.domainsProgress := by
  refine ⟨rfl, ?_, ?_, dpInit_invariant⟩
  · show dpInvariant
      ((((allSessions.filter (fun s => s.status == .COMPLETED)).foldl
        (fun acc s => s.questions.foldl (scratchQuestion s.userAnswers) acc)
        (0, dpInit)).2).map (fun p =>
          if 0 < p.2.questionsAnswered then
            let avg := jsRound ((p.2.correctAnswers : ℚ)
              / p.2.questionsAnswered * 100)
            (p.1, { p.2 with averageScore := avg })
          else p))
    exact dpInvariant_finalize _
      (scratch_foldl_counts _ _ (dpCountsOk_of_invariant _ dpInit_invariant))
  · unfold updateFromSession
    by_cases hst : session.status ≠ QuizSessionStatus.COMPLETED
    · rw [if_pos hst]; exact h
    · rw [if_neg hst]
      have h2 := foldl_updateStatsQuestion_dp session.userAnswers
        session.questions
        { stats with totalQuestionsAnswered :=
            stats.totalQuestionsAnswered + session.userAnswers.length }
        (by simpa using h)
      by_cases hex : session.type = SessionType.exam <;>
        cases hca : session.completedAt <;>
        simp only [hex, hca, if_true, if_false] <;>
        simpa using h2

/-- C10 witness: the preservation conjunct applied to the freshly cleared
statistics and the concrete completed session `sessionC`. -/
theorem claim10_witness :
    dpInvariant clearStatistics.domainsProgress ∧
    dpInvariant (updateFromSession clearStatistics sessionC 1).domainsProgress := by
  have h : dpInvariant clearStatistics.domainsProgress := dpInit_invariant
  exact ⟨h, (claim10_domains_progress clearStatistics sessionC 1 [] [] h).2.2.1⟩
